import Mathlib

/-!
Shallow embedding of the detection post-processing pipeline of
`src/app.py` (class `TrafficDetector`): raw-output parsing
(`detect_objects`, lines 100-136), label-scheme selection and
resolution (lines 141-168), confidence filtering, coordinate
scaling/clipping and the degeneracy check (lines 146-175), the
`traffic_stats` field (line 43) and the annotator
(`draw_detections`, lines 184-204).

Numeric values are modelled as exact rationals, Python `int()` as
truncation toward zero, and Python exceptions as `Except String`.
Numpy arrays are modelled as rational-valued nested lists of at most
three dimensions — the detection models served by this code emit
outputs shaped at most `[batch, detection, coordinate]`. A ragged
nested list is representable as a value but is rejected exactly where
the source rejects it: `np.array` inside `squeeze_batch` raises
`ValueError` on inhomogeneous shapes, so `squeeze_batch` is fallible
here and the parse handler turns that failure into `return []`.
-/

attribute [local semireducible] Rat.mul Rat.inv Rat.sub Rat.add

/-- A numpy-style array value: a 0-d scalar or an array of one, two
or three dimensions. -/
inductive Tensor where
  | scalar (q : ℚ) : Tensor
  | arr1 (l : List ℚ) : Tensor
  | arr2 (l : List (List ℚ)) : Tensor
  | arr3 (l : List (List (List ℚ))) : Tensor
deriving DecidableEq

/-- `np.ndim`. -/
def Tensor.ndim : Tensor → ℕ
  | .scalar _ => 0
  | .arr1 _ => 1
  | .arr2 _ => 2
  | .arr3 _ => 3

/-- The maximum of a list of rationals, `none` when empty. -/
def maxQ : List ℚ → Option ℚ
  | [] => none
  | q :: qs =>
    match maxQ qs with
    | none => some q
    | some m => some (max q m)

/-- Global maximum entry, mirroring `np.max`; `none` on an array with
no entries, where numpy raises. -/
def Tensor.maxVal : Tensor → Option ℚ
  | .scalar q => some q
  | .arr1 l => maxQ l
  | .arr2 l => maxQ l.flatten
  | .arr3 l => maxQ (l.map List.flatten).flatten

/-- Row-length uniformity of a 2-d nested list: every row has the
first row's length. `np.array` raises `ValueError` otherwise. -/
def rect2 (l : List (List ℚ)) : Bool :=
  l.all fun r => decide (r.length = (l.headD []).length)

/-- Uniformity of a 3-d nested list: every plane has the first plane's
row count and every row has the first plane's first row's length. -/
def rect3 (l : List (List (List ℚ))) : Bool :=
  l.all fun p =>
    decide (p.length = (l.headD []).length) &&
    p.all fun r => decide (r.length = ((l.headD []).headD []).length)

/-- Whether a value is representable as a numpy ndarray, i.e. is
rectangular; `np.array` on a non-rectangular nested sequence raises
`ValueError`. -/
def Tensor.wellFormed : Tensor → Bool
  | .scalar _ => true
  | .arr1 _ => true
  | .arr2 l => rect2 l
  | .arr3 l => rect3 l

/-- `squeeze_batch` from `detect_objects` (lines 105-111):
`arr_np = np.array(arr)` — which raises `ValueError` on a ragged
input, modelled as `none` — then strip a leading batch dimension of
size 1. The source condition is `ndim >= 3 and shape[0] == 1`, or
`ndim == 2 and shape[0] == 1`; over arrays of at most three dimensions
those cases are exactly a 3-d array that is an outer singleton and a
2-d array that is an outer singleton. -/
def squeeze_batch (t : Tensor) : Option Tensor :=
  if t.wellFormed = true then
    some (match t with
      | .arr3 [x] => .arr2 x
      | .arr2 [x] => .arr1 x
      | t => t)
  else none

/-- `if x is not None: x = squeeze_batch(x)` (lines 117-122) applied
to a maybe-present named output: absent stays absent, present goes
through `np.array` and the batch strip, whose `ValueError` aborts the
parse. -/
def squeezeOpt : Option Tensor → Option (Option Tensor)
  | none => some none
  | some t => (squeeze_batch t).map some

/-- `if x is None: x = squeeze_batch(outputs[k])` (lines 126-131): a
slot already filled by name is kept; a missing slot is filled from the
positional output, going through `np.array` and the batch strip. -/
def fillSlot : Option Tensor → Tensor → Option Tensor
  | some t, _ => some t
  | none, fallback => squeeze_batch fallback

/-- Lookup in the `name_to_output` dict (line 103); a Python dict
comprehension keeps the last binding of a duplicated key. -/
def lookupLast (outs : List (String × Tensor)) (k : String) : Option Tensor :=
  List.lookup k outs.reverse

/-- Output parsing, lines 113-136: fetch `boxes`/`labels`/`scores` by
name and squeeze each; if any is missing and at least three outputs
exist, fill the missing ones positionally (`boxes = outputs[1]`,
`labels = outputs[2]`, `scores = outputs[0]`); with fewer than three
outputs give up (`return []` at line 133). A `ValueError` from
`np.array` on a ragged tensor is caught by the handler at lines
134-136, which also returns `[]`; both outcomes are `none` here. -/
def parseOutputs (outs : List (String × Tensor)) : Option (Tensor × Tensor × Tensor) :=
  match squeezeOpt (lookupLast outs "boxes"), squeezeOpt (lookupLast outs "labels"),
        squeezeOpt (lookupLast outs "scores") with
  | some b0, some l0, some s0 =>
    if b0.isNone ∨ l0.isNone ∨ s0.isNone then
      if 3 ≤ outs.length then
        match fillSlot b0 (outs.getD 1 ("", Tensor.arr1 [])).2,
              fillSlot l0 (outs.getD 2 ("", Tensor.arr1 [])).2,
              fillSlot s0 (outs.getD 0 ("", Tensor.arr1 [])).2 with
        | some b, some l, some s => some (b, l, s)
        | _, _, _ => none
      else none
    else
      some (b0.getD (Tensor.arr1 []), l0.getD (Tensor.arr1 []), s0.getD (Tensor.arr1 []))
  | _, _, _ => none

/-- Python `int()` on a rational: truncation toward zero. -/
def pyInt (q : ℚ) : ℤ := if 0 ≤ q then ⌊q⌋ else ⌈q⌉

/-- `int(max(0, min(v, lim)))` — the coordinate clipping of
lines 155-158. -/
def pyClip (v lim : ℚ) : ℤ := pyInt (max 0 (min v lim))

/-- Label resolution, lines 162-168: label 3 is always "motorcycle";
otherwise the table chosen by `use_01` applies, falling back to
`"class_<id>"` for an id outside the table. -/
def resolveLabel (use01 : Bool) (cls : ℤ) : String :=
  if cls = 3 then "motorcycle"
  else if use01 then
    if cls = 0 then "motorcycle"
    else if cls = 1 then "car"
    else "class_" ++ toString cls
  else
    if cls = 1 then "motorcycle"
    else if cls = 2 then "car"
    else "class_" ++ toString cls

/-- Scheme selection, lines 141-144: `use_01 = int(np.max(labels)) <= 1`,
defaulting to the 0-based scheme when `np.max` raises (empty labels). -/
def use01Of (labels : Tensor) : Bool :=
  match Tensor.maxVal labels with
  | some m => decide (pyInt m ≤ 1)
  | none => true

/-- `len(x)` / `x.shape[0]`: the leading-axis length, raising on a
0-d array. -/
def Tensor.length : Tensor → Except String ℕ
  | .scalar _ => .error "len of unsized object"
  | .arr1 l => .ok l.length
  | .arr2 l => .ok l.length
  | .arr3 l => .ok l.length

/-- Indexing `x[i]` along the leading axis: drops one dimension,
raising on a 0-d array or an out-of-range index. -/
def Tensor.item : Tensor → ℕ → Except String Tensor
  | .scalar _, _ => .error "cannot index 0-d array"
  | .arr1 l, i =>
    match l.get? i with
    | some q => .ok (.scalar q)
    | none => .error "index out of range"
  | .arr2 l, i =>
    match l.get? i with
    | some r => .ok (.arr1 r)
    | none => .error "index out of range"
  | .arr3 l, i =>
    match l.get? i with
    | some r => .ok (.arr2 r)
    | none => .error "index out of range"

/-- `float(x)` / `int(x)` applied to an array element: succeeds only
on a scalar. -/
def asScalar : Tensor → Except String ℚ
  | .scalar q => .ok q
  | _ => .error "not a scalar"

/-- `bx1, by1, bx2, by2 = map(float, boxes[i])` (line 154): the row
must hold exactly four entries. -/
def asRow4 : Tensor → Except String (ℚ × ℚ × ℚ × ℚ)
  | .arr1 [a, b, c, d] => .ok (a, b, c, d)
  | _ => .error "bad box row"

/-- A bounding box `[x1, y1, x2, y2]` in original-image pixel
coordinates. -/
structure BBox where
  x1 : ℤ
  y1 : ℤ
  x2 : ℤ
  y2 : ℤ
deriving DecidableEq

/-- One detection record as appended at lines 170-175. -/
structure Detection where
  class_id : ℤ
  class_name : String
  confidence : ℚ
  bbox : BBox
deriving DecidableEq

/-- The threshold-independent tail of a loop iteration (lines
153-175), run for an item whose confidence `conf` passed the gate:
label extraction, box unpacking, scaling by `w/640` and `h/640`,
clipping, degeneracy check, record construction. `.ok none` is a
`continue`; `.error` is a raised exception. -/
def procRest (labels boxes : Tensor) (use01 : Bool) (w h : ℕ) (conf : ℚ) (i : ℕ) :
    Except String (Option Detection) :=
  match labels.item i with
  | .error e => .error e
  | .ok lT =>
    match asScalar lT with
    | .error e => .error e
    | .ok clsq =>
      match boxes.item i with
      | .error e => .error e
      | .ok bT =>
        match asRow4 bT with
        | .error e => .error e
        | .ok (b1, b2, b3, b4) =>
          let x1 := pyClip (b1 * ((w : ℚ) / 640)) ((w : ℚ) - 1)
          let y1 := pyClip (b2 * ((h : ℚ) / 640)) ((h : ℚ) - 1)
          let x2 := pyClip (b3 * ((w : ℚ) / 640)) ((w : ℚ) - 1)
          let y2 := pyClip (b4 * ((h : ℚ) / 640)) ((h : ℚ) - 1)
          if x1 ≥ x2 ∨ y1 ≥ y2 then .ok none
          else .ok (some { class_id := pyInt clsq,
                           class_name := resolveLabel use01 (pyInt clsq),
                           confidence := conf,
                           bbox := ⟨x1, y1, x2, y2⟩ })

/-- One iteration of the detection loop (lines 148-175) at index `i`:
score extraction, the confidence gate of lines 150-151 — the only place
the threshold is consulted — then the threshold-independent tail. -/
def procDet (scores labels boxes : Tensor) (use01 : Bool) (w h : ℕ) (t : ℚ) (i : ℕ) :
    Except String (Option Detection) :=
  match scores.item i with
  | .error e => .error e
  | .ok sT =>
    match asScalar sT with
    | .error e => .error e
    | .ok conf =>
      if conf < t then .ok none
      else procRest labels boxes use01 w h conf i

/-- The `for i in range(num_items)` loop: a raised exception aborts
the whole loop (and the accumulated list is discarded by the outer
handler). -/
def detectLoop (scores labels boxes : Tensor) (use01 : Bool) (w h : ℕ) (t : ℚ) :
    List ℕ → Except String (List Detection)
  | [] => .ok []
  | i :: rest =>
    match procDet scores labels boxes use01 w h t i with
    | .error e => .error e
    | .ok none => detectLoop scores labels boxes use01 w h t rest
    | .ok (some d) =>
      match detectLoop scores labels boxes use01 w h t rest with
      | .error e => .error e
      | .ok ds => .ok (d :: ds)

/-- Body of `detect_objects` after inference (lines 100-178): parse
the outputs, compute `num_items = min(len(scores), len(labels),
boxes.shape[0])` and `use_01`, then run the loop. A parse miss with
fewer than three outputs is the source's explicit `return []`;
exceptions propagate as `.error` (caught by the caller's handler). -/
def detectBody (outs : List (String × Tensor)) (w h : ℕ) (t : ℚ) :
    Except String (List Detection) :=
  match parseOutputs outs with
  | none => .ok []
  | some (boxes, labels, scores) =>
    match scores.length, labels.length, boxes.length with
    | .ok ns, .ok nl, .ok nb =>
      detectLoop scores labels boxes (use01Of labels) w h t
        (List.range (min ns (min nl nb)))
    | .error e, _, _ => .error e
    | _, .error e, _ => .error e
    | _, _, .error e => .error e

/-- Public `detect_objects` (lines 69-182): returns `[]` when no model
is loaded, and otherwise runs the body with the outer
`except Exception: return []` turning every internal error into `[]`.
A loaded model is represented by the list of named output tensors it
produced for the given image; `w`, `h` are the image dimensions and
`t` the caller's confidence threshold. -/
def detect_objects (model : Option (List (String × Tensor))) (w h : ℕ) (t : ℚ) :
    List Detection :=
  match model with
  | none => []
  | some outs =>
    match detectBody outs w h t with
    | .ok ds => ds
    | .error _ => []

/-- The mutable state of a `TrafficDetector` instance relevant to the
pipeline: the loaded model (as the outputs it yields) and the
`traffic_stats` counter created at line 43 (`defaultdict(int)`,
modelled as an association list). -/
structure TrafficDetectorState where
  model : Option (List (String × Tensor))
  traffic_stats : List (String × ℕ)

/-- The `detect_objects` method as a state transformer: the method
body (lines 69-182) never reads or writes `self.traffic_stats` — its
only uses in the repository are the initialization at line 43 and the
read in the `/stats` endpoint — so the instance state is returned
unchanged alongside the detection list. -/
def detect_objects_method (st : TrafficDetectorState) (w h : ℕ) (t : ℚ) :
    TrafficDetectorState × List Detection :=
  (st, detect_objects st.model w h t)

/-- An image as rows of pixel triples (RGB or BGR channel order). -/
abbrev Img : Type := List (List (ℕ × ℕ × ℕ))

/-- `cv2.cvtColor(..., COLOR_RGB2BGR)` / `COLOR_BGR2RGB`: reverse the
channel order of every pixel, yielding a fresh image. -/
def swapChannels (img : Img) : Img :=
  img.map (List.map fun p => (p.2.2, p.2.1, p.1))

/-- A detection record as consumed by `draw_detections`
(`det["class_name"]`, `det["confidence"]`, `det["bbox"]`); the bbox
list may have any length, so the four-way unpack at line 191 can
fail. -/
structure RawDet where
  class_name : String
  confidence : ℚ
  bbox : List ℤ

/-- `cv2.rectangle(frame, (x1, y1), (x2, y2), color, 1)`: paint the
border pixels of the rectangle, returning a new image value. -/
def cvRectangle (img : Img) (x1 y1 x2 y2 : ℤ) (c : ℕ × ℕ × ℕ) : Img :=
  img.mapIdx fun y row =>
    row.mapIdx fun x p =>
      if (((x : ℤ) = x1 ∨ (x : ℤ) = x2) ∧ y1 ≤ (y : ℤ) ∧ (y : ℤ) ≤ y2) ∨
         (((y : ℤ) = y1 ∨ (y : ℤ) = y2) ∧ x1 ≤ (x : ℤ) ∧ (x : ℤ) ≤ x2)
      then c else p

/-- The rectangle-drawing loop of `draw_detections` (lines 190-200):
unpack each bbox, pick the class colour (BGR: red for "car", green
for "motorcycle", yellow otherwise), draw on the frame. All writes
target the frame, never the caller's image. -/
def drawLoop (frame : Img) : List RawDet → Except String Img
  | [] => .ok frame
  | det :: rest =>
    match det.bbox with
    | [x1, y1, x2, y2] =>
      let c :=
        if det.class_name = "car" then (0, 0, 255)
        else if det.class_name = "motorcycle" then (0, 255, 0)
        else (0, 255, 255)
      drawLoop (cvRectangle frame x1 y1 x2 y2 c) rest
    | _ => .error "bbox unpack failed"

/-- `draw_detections` (lines 184-204) with the caller's image threaded
explicitly: the frame is a fresh copy (`cv2.cvtColor(np.array(image),
COLOR_RGB2BGR)` for a PIL image), the loop draws on the frame only,
and on success the frame is converted back; `except Exception` returns
the caller's image unchanged. The first component of the result is the
caller's image after the call, the second the returned image. -/
def draw_detections (image : Img) (dets : List RawDet) : Img × Img :=
  match drawLoop (swapChannels image) dets with
  | .ok f => (image, swapChannels f)
  | .error _ => (image, image)

/-! ### Concrete inputs used by witnesses and counterexamples -/

/-- C1: a two-tensor output collection with unrecognized names. -/
def c1Outs : List (String × Tensor) :=
  [("output0", Tensor.arr1 [1]), ("output1", Tensor.arr1 [2])]

/-- C1: five output tensors with unrecognized names; positions 0, 1, 2
hold score-, box- and label-shaped data. -/
def c1OutsFive : List (String × Tensor) :=
  [("o0", Tensor.arr1 [9/10, 8/10]),
   ("o1", Tensor.arr2 [[10, 20, 100, 200], [30, 40, 120, 220]]),
   ("o2", Tensor.arr1 [1, 2]),
   ("o3", Tensor.arr1 [7]),
   ("o4", Tensor.arr1 [8])]

/-- C2: a named batched single-detection output. -/
def c2Outs : List (String × Tensor) :=
  [("labels", Tensor.arr2 [[1]]),
   ("boxes", Tensor.arr3 [[[10, 20, 100, 200]]]),
   ("scores", Tensor.arr2 [[9/10]])]

/-- C2: the detection produced from `c2Outs` on a 640x640 image. -/
def c2Det : Detection :=
  { class_id := 1, class_name := "car", confidence := 9/10, bbox := ⟨10, 20, 100, 200⟩ }

/-- C3: a batch whose maximum label is 2, selecting the offset scheme,
with one label (7) outside the table. -/
def c3Outs : List (String × Tensor) :=
  [("labels", Tensor.arr1 [2, 7]),
   ("boxes", Tensor.arr2 [[10, 20, 100, 200], [30, 40, 120, 220]]),
   ("scores", Tensor.arr1 [9/10, 8/10])]

/-- C3: the second detection from `c3Outs`: label 7 falls back to
"class_7". -/
def c3DetB : Detection :=
  { class_id := 7, class_name := "class_7", confidence := 8/10, bbox := ⟨30, 40, 120, 220⟩ }

/-- C4: a normalized-coordinate raw box `[0.1, 0.2, 0.3, 0.4]` with a
high score. -/
def c4Outs : List (String × Tensor) :=
  [("labels", Tensor.arr2 [[1]]),
   ("boxes", Tensor.arr3 [[[1/10, 2/10, 3/10, 4/10]]]),
   ("scores", Tensor.arr2 [[9/10]])]

/-- C5: a two-detection output with scores 0.9 and 0.4, separating
thresholds 0.3 and 0.5. -/
def c5GoodOuts : List (String × Tensor) :=
  [("labels", Tensor.arr1 [1, 1]),
   ("boxes", Tensor.arr2 [[10, 20, 100, 200], [30, 40, 120, 220]]),
   ("scores", Tensor.arr1 [9/10, 4/10])]

/-- C5: the first detection of `c5GoodOuts`, surviving both
thresholds. -/
def c5DetA : Detection :=
  { class_id := 1, class_name := "car", confidence := 9/10, bbox := ⟨10, 20, 100, 200⟩ }

/-- C6: a bare single-detection 3-tensor output — labels shape `(1,)`,
boxes shape `(1, 4)`, scores shape `(1,)`. -/
def c6BareOuts : List (String × Tensor) :=
  [("labels", Tensor.arr1 [1]),
   ("boxes", Tensor.arr2 [[10, 20, 100, 200]]),
   ("scores", Tensor.arr1 [9/10])]

/-- C7: a well-formed batched single-detection output. -/
def c7Outs : List (String × Tensor) :=
  [("labels", Tensor.arr2 [[1]]),
   ("boxes", Tensor.arr3 [[[10, 20, 100, 200]]]),
   ("scores", Tensor.arr2 [[9/10]])]

/-- C7: the detection of `c7Outs` when the threshold admits it. -/
def c7Det : Detection :=
  { class_id := 1, class_name := "car", confidence := 9/10, bbox := ⟨10, 20, 100, 200⟩ }

/-- C8: a single-car output batch. -/
def c8Outs : List (String × Tensor) :=
  [("labels", Tensor.arr2 [[1]]),
   ("boxes", Tensor.arr3 [[[50, 60, 150, 260]]]),
   ("scores", Tensor.arr2 [[8/10]])]

/-- C8: the detection produced from `c8Outs`. -/
def c8Det : Detection :=
  { class_id := 1, class_name := "car", confidence := 8/10, bbox := ⟨50, 60, 150, 260⟩ }

/-- C9: a small 2x2 image. -/
def c9Img : Img := [[(1, 2, 3), (4, 5, 6)], [(7, 8, 9), (10, 11, 12)]]

/-- C9: a detection whose bbox has only three entries, making the
unpack at line 191 raise. -/
def c9BadDet : RawDet := { class_name := "car", confidence := 9/10, bbox := [1, 2, 3] }

/-- C10: an output whose first box row has two entries, raising inside
the loop. -/
def c10ErrOuts : List (String × Tensor) :=
  [("labels", Tensor.arr1 [1]),
   ("boxes", Tensor.arr2 [[1, 2]]),
   ("scores", Tensor.arr1 [9/10])]

/-! ### Helper lemmas -/

theorem pyClip_eq_floor (v lim : ℚ) : pyClip v lim = ⌊max 0 (min v lim)⌋ := by
  unfold pyClip pyInt
  rw [if_pos (le_max_left 0 (min v lim))]

theorem pyClip_nonneg (v lim : ℚ) : 0 ≤ pyClip v lim := by
  rw [pyClip_eq_floor]
  exact Int.le_floor.mpr (by exact_mod_cast le_max_left 0 (min v lim))

theorem pyClip_le (v : ℚ) (n : ℤ) : pyClip v (n : ℚ) ≤ max 0 n := by
  rw [pyClip_eq_floor]
  have h1 : max 0 (min v (n : ℚ)) ≤ ((max 0 n : ℤ) : ℚ) := by
    push_cast
    exact max_le_max le_rfl (min_le_right _ _)
  calc ⌊max 0 (min v (n : ℚ))⌋ ≤ ⌊((max 0 n : ℤ) : ℚ)⌋ := Int.floor_le_floor h1
    _ = max 0 n := Int.floor_intCast _

theorem pyClip_le_pred (v : ℚ) (w : ℕ) : pyClip v ((w : ℚ) - 1) ≤ max 0 ((w : ℤ) - 1) := by
  have h : ((((w : ℤ) - 1) : ℤ) : ℚ) = (w : ℚ) - 1 := by push_cast; ring
  rw [← h]
  exact pyClip_le v ((w : ℤ) - 1)

theorem rect3_singleton (l : List (List ℚ)) : rect3 [l] = rect2 l := by
  simp [rect3, rect2]

theorem squeeze_wrap2 (l : List ℚ) :
    squeeze_batch (Tensor.arr2 [l]) = some (Tensor.arr1 l) := by
  simp [squeeze_batch, Tensor.wellFormed, rect2]

theorem squeeze_wrap3 (l : List (List ℚ)) (h : rect2 l = true) :
    squeeze_batch (Tensor.arr3 [l]) = some (Tensor.arr2 l) := by
  have hw : Tensor.wellFormed (Tensor.arr3 [l]) = true := by
    show rect3 [l] = true
    rw [rect3_singleton]
    exact h
  simp [squeeze_batch, hw]

theorem squeeze_arr1 (l : List ℚ) :
    squeeze_batch (Tensor.arr1 l) = some (Tensor.arr1 l) := rfl

theorem squeeze_arr2_of_len_ne_one (l : List (List ℚ)) (hr : rect2 l = true)
    (h : l.length ≠ 1) :
    squeeze_batch (Tensor.arr2 l) = some (Tensor.arr2 l) := by
  rcases l with _ | ⟨x, _ | ⟨y, rest⟩⟩
  · rfl
  · exact absurd rfl h
  · have hw : Tensor.wellFormed (Tensor.arr2 (x :: y :: rest)) = true := hr
    simp [squeeze_batch, hw]

theorem squeeze_wf {t t2 : Tensor} (hs : squeeze_batch t = some t2) :
    t2.wellFormed = true := by
  unfold squeeze_batch at hs
  split at hs
  next hwf =>
    simp only [Option.some.injEq] at hs
    subst hs
    cases t with
    | scalar q => rfl
    | arr1 l => exact hwf
    | arr2 l =>
      rcases l with _ | ⟨x, _ | ⟨y, rest⟩⟩
      · exact hwf
      · rfl
      · exact hwf
    | arr3 l =>
      rcases l with _ | ⟨x, _ | ⟨y, rest⟩⟩
      · exact hwf
      · show rect2 x = true
        have h3 : rect3 [x] = true := hwf
        rwa [rect3_singleton] at h3
      · exact hwf
  next => exact absurd hs (by simp)

theorem squeezeOpt_some_wf {o : Option Tensor} {t : Tensor}
    (h : squeezeOpt o = some (some t)) : t.wellFormed = true := by
  cases o with
  | none => simp [squeezeOpt] at h
  | some t0 =>
    simp only [squeezeOpt] at h
    cases hs : squeeze_batch t0 with
    | none => rw [hs] at h; simp at h
    | some t1 =>
      rw [hs] at h
      simp only [Option.map_some', Option.some.injEq] at h
      subst h
      exact squeeze_wf hs

theorem fillSlot_wf_of {x o : Option Tensor} {fb t : Tensor}
    (hq : squeezeOpt x = some o) (hf : fillSlot o fb = some t) :
    t.wellFormed = true := by
  cases o with
  | some t0 =>
    simp only [fillSlot, Option.some.injEq] at hf
    subst hf
    exact squeezeOpt_some_wf hq
  | none => exact squeeze_wf hf

theorem parseOutputs_named (L B S : Tensor) {bL bB bS : Tensor}
    (hB : squeeze_batch B = some bB) (hL : squeeze_batch L = some bL)
    (hS : squeeze_batch S = some bS) :
    parseOutputs [("labels", L), ("boxes", B), ("scores", S)] = some (bB, bL, bS) := by
  have e1 : lookupLast [("labels", L), ("boxes", B), ("scores", S)] "boxes" = some B := rfl
  have e2 : lookupLast [("labels", L), ("boxes", B), ("scores", S)] "labels" = some L := rfl
  have e3 : lookupLast [("labels", L), ("boxes", B), ("scores", S)] "scores" = some S := rfl
  unfold parseOutputs
  rw [e1, e2, e3]
  simp only [squeezeOpt, hB, hL, hS, Option.map_some']
  rw [if_neg (by simp)]
  rfl

theorem parse_wellFormed {outs : List (String × Tensor)} {b l s : Tensor}
    (hp : parseOutputs outs = some (b, l, s)) :
    b.wellFormed = true ∧ l.wellFormed = true ∧ s.wellFormed = true := by
  unfold parseOutputs at hp
  cases hqb : squeezeOpt (lookupLast outs "boxes") with
  | none => simp [hqb] at hp
  | some b0 =>
    simp only [hqb] at hp
    cases hql : squeezeOpt (lookupLast outs "labels") with
    | none => simp [hql] at hp
    | some l0 =>
      simp only [hql] at hp
      cases hqs : squeezeOpt (lookupLast outs "scores") with
      | none => simp [hqs] at hp
      | some s0 =>
        simp only [hqs] at hp
        by_cases hnone : b0.isNone ∨ l0.isNone ∨ s0.isNone
        · rw [if_pos hnone] at hp
          split at hp
          · cases hfb : fillSlot b0 (outs.getD 1 ("", Tensor.arr1 [])).2 with
            | none => rw [hfb] at hp; simp at hp
            | some tb =>
              rw [hfb] at hp
              cases hfl : fillSlot l0 (outs.getD 2 ("", Tensor.arr1 [])).2 with
              | none => rw [hfl] at hp; simp at hp
              | some tl =>
                rw [hfl] at hp
                cases hfs : fillSlot s0 (outs.getD 0 ("", Tensor.arr1 [])).2 with
                | none => rw [hfs] at hp; simp at hp
                | some ts =>
                  rw [hfs] at hp
                  simp only [Option.some.injEq, Prod.mk.injEq] at hp
                  obtain ⟨rfl, rfl, rfl⟩ := hp
                  exact ⟨fillSlot_wf_of hqb hfb, fillSlot_wf_of hql hfl,
                         fillSlot_wf_of hqs hfs⟩
          · exact absurd hp (by simp)
        · rw [if_neg hnone] at hp
          push_neg at hnone
          obtain ⟨hb0, hl0, hs0⟩ := hnone
          obtain ⟨tb, rfl⟩ : ∃ tb, b0 = some tb := by
            cases b0
            · simp at hb0
            · exact ⟨_, rfl⟩
          obtain ⟨tl, rfl⟩ : ∃ tl, l0 = some tl := by
            cases l0
            · simp at hl0
            · exact ⟨_, rfl⟩
          obtain ⟨ts, rfl⟩ : ∃ ts, s0 = some ts := by
            cases s0
            · simp at hs0
            · exact ⟨_, rfl⟩
          simp only [Option.getD_some, Option.some.injEq, Prod.mk.injEq] at hp
          obtain ⟨rfl, rfl, rfl⟩ := hp
          exact ⟨squeezeOpt_some_wf hqb, squeezeOpt_some_wf hql, squeezeOpt_some_wf hqs⟩

theorem procRest_some_spec {labels boxes : Tensor} {u : Bool} {w h : ℕ} {conf : ℚ}
    {i : ℕ} {d : Detection}
    (hp : procRest labels boxes u w h conf i = .ok (some d)) :
    d.confidence = conf ∧ d.class_name = resolveLabel u d.class_id ∧
    ∃ b1 b2 b3 b4 : ℚ,
      d.bbox.x1 = pyClip (b1 * ((w : ℚ) / 640)) ((w : ℚ) - 1) ∧
      d.bbox.y1 = pyClip (b2 * ((h : ℚ) / 640)) ((h : ℚ) - 1) ∧
      d.bbox.x2 = pyClip (b3 * ((w : ℚ) / 640)) ((w : ℚ) - 1) ∧
      d.bbox.y2 = pyClip (b4 * ((h : ℚ) / 640)) ((h : ℚ) - 1) ∧
      d.bbox.x1 < d.bbox.x2 ∧ d.bbox.y1 < d.bbox.y2 := by
  unfold procRest at hp
  split at hp
  · exact absurd hp (by simp)
  split at hp
  · exact absurd hp (by simp)
  split at hp
  · exact absurd hp (by simp)
  split at hp
  · exact absurd hp (by simp)
  next b1 b2 b3 b4 _ =>
  dsimp only at hp
  split at hp
  · exact absurd hp (by simp)
  next hdeg =>
  simp only [Except.ok.injEq, Option.some.injEq] at hp
  subst hp
  push_neg at hdeg
  exact ⟨rfl, rfl, b1, b2, b3, b4, rfl, rfl, rfl, rfl, hdeg.1, hdeg.2⟩

theorem procDet_eq_of_conf {scores labels boxes : Tensor} {u : Bool} {w h : ℕ} {t : ℚ}
    {i : ℕ} {sT : Tensor} {conf : ℚ}
    (hsT : scores.item i = .ok sT) (hcf : asScalar sT = .ok conf) :
    procDet scores labels boxes u w h t i =
      if conf < t then .ok none else procRest labels boxes u w h conf i := by
  unfold procDet
  simp only [hsT, hcf]

theorem procDet_ok_scores {scores labels boxes : Tensor} {u : Bool} {w h : ℕ} {t : ℚ}
    {i : ℕ} {r : Option Detection}
    (hp : procDet scores labels boxes u w h t i = .ok r) :
    ∃ sT conf, scores.item i = .ok sT ∧ asScalar sT = .ok conf := by
  unfold procDet at hp
  split at hp
  · exact absurd hp (by simp)
  next sT hsT =>
  split at hp
  · exact absurd hp (by simp)
  next conf hcf =>
  exact ⟨sT, conf, hsT, hcf⟩

theorem procDet_some_parts {scores labels boxes : Tensor} {u : Bool} {w h : ℕ} {t : ℚ}
    {i : ℕ} {d : Detection}
    (hp : procDet scores labels boxes u w h t i = .ok (some d)) :
    ∃ sT conf, scores.item i = .ok sT ∧ asScalar sT = .ok conf ∧ ¬ conf < t ∧
      procRest labels boxes u w h conf i = .ok (some d) := by
  unfold procDet at hp
  split at hp
  · exact absurd hp (by simp)
  next sT hsT =>
  split at hp
  · exact absurd hp (by simp)
  next conf hcf =>
  split at hp
  · exact absurd hp (by simp)
  next hc =>
  exact ⟨sT, conf, hsT, hcf, hc, hp⟩

theorem procDet_ok_some {scores labels boxes : Tensor} {u : Bool} {w h : ℕ} {t : ℚ}
    {i : ℕ} {d : Detection}
    (hp : procDet scores labels boxes u w h t i = .ok (some d)) :
    t ≤ d.confidence ∧ d.class_name = resolveLabel u d.class_id ∧
    ∃ b1 b2 b3 b4 : ℚ,
      d.bbox.x1 = pyClip (b1 * ((w : ℚ) / 640)) ((w : ℚ) - 1) ∧
      d.bbox.y1 = pyClip (b2 * ((h : ℚ) / 640)) ((h : ℚ) - 1) ∧
      d.bbox.x2 = pyClip (b3 * ((w : ℚ) / 640)) ((w : ℚ) - 1) ∧
      d.bbox.y2 = pyClip (b4 * ((h : ℚ) / 640)) ((h : ℚ) - 1) ∧
      d.bbox.x1 < d.bbox.x2 ∧ d.bbox.y1 < d.bbox.y2 := by
  obtain ⟨sT, conf, hsT, hcf, hc, hrest⟩ := procDet_some_parts hp
  obtain ⟨hcd, hname, spec⟩ := procRest_some_spec hrest
  refine ⟨?_, hname, spec⟩
  rw [hcd]
  exact not_lt.mp hc

theorem list_eq_four {l : List ℚ} (h : l.length = 4) :
    ∃ a b c d : ℚ, l = [a, b, c, d] := by
  rcases l with _ | ⟨a, _ | ⟨b, _ | ⟨c, _ | ⟨d, _ | ⟨e, rest⟩⟩⟩⟩⟩ <;> simp_all

theorem rect2_len {l : List (List ℚ)} {r1 r2 : List ℚ} (hr : rect2 l = true)
    (h1 : r1 ∈ l) (h2 : r2 ∈ l) : r1.length = r2.length := by
  simp only [rect2, List.all_eq_true, decide_eq_true_eq] at hr
  rw [hr r1 h1, hr r2 h2]

theorem exists_ok_ite {c : Prop} [Decidable c] (A B : Option Detection) :
    ∃ r, (if c then (Except.ok A : Except String (Option Detection)) else .ok B) = .ok r := by
  by_cases h : c
  · exact ⟨A, by rw [if_pos h]⟩
  · exact ⟨B, by rw [if_neg h]⟩

theorem procRest_uniform {labels boxes : Tensor} {u : Bool} {w h : ℕ} {conf : ℚ}
    (conf2 : ℚ) {i j : ℕ} {r : Option Detection} {nl nb : ℕ}
    (hwfB : boxes.wellFormed = true)
    (hll : Tensor.length labels = .ok nl) (hlb : Tensor.length boxes = .ok nb)
    (hjl : j < nl) (hjb : j < nb)
    (hi : procRest labels boxes u w h conf i = .ok r) :
    ∃ r2, procRest labels boxes u w h conf2 j = .ok r2 := by
  cases labels with
  | scalar q => exact absurd hll (by simp [Tensor.length])
  | arr2 l2 =>
    exfalso
    unfold procRest at hi
    cases hg : l2[i]? with
    | none => simp [Tensor.item, hg] at hi
    | some row => simp [Tensor.item, hg, asScalar] at hi
  | arr3 l3 =>
    exfalso
    unfold procRest at hi
    cases hg : l3[i]? with
    | none => simp [Tensor.item, hg] at hi
    | some plane => simp [Tensor.item, hg, asScalar] at hi
  | arr1 ll =>
    have hnl : nl = ll.length := by
      simp only [Tensor.length, Except.ok.injEq] at hll
      omega
    cases boxes with
    | scalar q => exact absurd hlb (by simp [Tensor.length])
    | arr1 bl =>
      exfalso
      unfold procRest at hi
      cases hgl : ll[i]? with
      | none => simp [Tensor.item, hgl] at hi
      | some q =>
        cases hgb : bl[i]? with
        | none => simp [Tensor.item, hgl, hgb, asScalar] at hi
        | some q2 => simp [Tensor.item, hgl, hgb, asScalar, asRow4] at hi
    | arr3 b3 =>
      exfalso
      unfold procRest at hi
      cases hgl : ll[i]? with
      | none => simp [Tensor.item, hgl] at hi
      | some q =>
        cases hgb : b3[i]? with
        | none => simp [Tensor.item, hgl, hgb, asScalar] at hi
        | some plane => simp [Tensor.item, hgl, hgb, asScalar, asRow4] at hi
    | arr2 bl =>
      have hnb : nb = bl.length := by
        simp only [Tensor.length, Except.ok.injEq] at hlb
        omega
      unfold procRest at hi
      cases hgl : ll[i]? with
      | none => simp [Tensor.item, hgl] at hi
      | some qi =>
        cases hgb : bl[i]? with
        | none => simp [Tensor.item, hgl, hgb, asScalar] at hi
        | some rowi =>
          rcases rowi with _ | ⟨a1, _ | ⟨a2, _ | ⟨a3, _ | ⟨a4, _ | ⟨a5, rrest⟩⟩⟩⟩⟩
          · simp [Tensor.item, hgl, hgb, asScalar, asRow4] at hi
          · simp [Tensor.item, hgl, hgb, asScalar, asRow4] at hi
          · simp [Tensor.item, hgl, hgb, asScalar, asRow4] at hi
          · simp [Tensor.item, hgl, hgb, asScalar, asRow4] at hi
          · have hjb2 : j < bl.length := by omega
            obtain ⟨rowj, hgbj⟩ : ∃ rj, bl[j]? = some rj :=
              ⟨_, List.getElem?_eq_getElem hjb2⟩
            have hrj4 : rowj.length = 4 := by
              have hmi : bl.get? i = some [a1, a2, a3, a4] := by
                rw [List.get?_eq_getElem?]
                exact hgb
              have hmj : bl.get? j = some rowj := by
                rw [List.get?_eq_getElem?]
                exact hgbj
              have hmemi : [a1, a2, a3, a4] ∈ bl := List.get?_mem hmi
              have hmemj : rowj ∈ bl := List.get?_mem hmj
              have h44 := rect2_len hwfB hmemj hmemi
              simpa using h44
            obtain ⟨b1, b2, b3, b4, hrowj⟩ := list_eq_four hrj4
            subst hrowj
            have hjl2 : j < ll.length := by omega
            obtain ⟨qj, hglj⟩ : ∃ q, ll[j]? = some q :=
              ⟨_, List.getElem?_eq_getElem hjl2⟩
            unfold procRest
            simp only [Tensor.item, List.get?_eq_getElem?, hglj, hgbj, asScalar, asRow4]
            exact exists_ok_ite _ _
          · simp [Tensor.item, hgl, hgb, asScalar, asRow4] at hi

theorem detectLoop_mem {scores labels boxes : Tensor} {u : Bool} {w h : ℕ} {t : ℚ} :
    ∀ {idx : List ℕ} {L : List Detection},
      detectLoop scores labels boxes u w h t idx = .ok L →
      ∀ {d : Detection}, d ∈ L →
        ∃ i, i ∈ idx ∧ procDet scores labels boxes u w h t i = .ok (some d) := by
  intro idx
  induction idx with
  | nil =>
    intro L hL d hd
    unfold detectLoop at hL
    simp only [Except.ok.injEq] at hL
    subst hL
    simp at hd
  | cons i rest ih =>
    intro L hL d hd
    unfold detectLoop at hL
    cases hp : procDet scores labels boxes u w h t i with
    | error e => rw [hp] at hL; exact absurd hL (by simp)
    | ok o =>
      rw [hp] at hL
      cases o with
      | none =>
        obtain ⟨j, hj, hpj⟩ := ih hL hd
        exact ⟨j, List.mem_cons_of_mem _ hj, hpj⟩
      | some d0 =>
        cases hrest : detectLoop scores labels boxes u w h t rest with
        | error e => rw [hrest] at hL; exact absurd hL (by simp)
        | ok ds =>
          rw [hrest] at hL
          simp only [Except.ok.injEq] at hL
          subst hL
          rcases List.mem_cons.mp hd with rfl | hmem
          · exact ⟨i, List.mem_cons_self _ _, hp⟩
          · obtain ⟨j, hj, hpj⟩ := ih hrest hmem
            exact ⟨j, List.mem_cons_of_mem _ hj, hpj⟩

theorem detectLoop_ok_forall {scores labels boxes : Tensor} {u : Bool} {w h : ℕ} {t : ℚ} :
    ∀ {idx : List ℕ} {L : List Detection},
      detectLoop scores labels boxes u w h t idx = .ok L →
      ∀ i ∈ idx, ∃ r, procDet scores labels boxes u w h t i = .ok r := by
  intro idx
  induction idx with
  | nil =>
    intro L _ i hi
    simp at hi
  | cons i0 rest ih =>
    intro L hL i hi
    unfold detectLoop at hL
    cases hp : procDet scores labels boxes u w h t i0 with
    | error e => rw [hp] at hL; exact absurd hL (by simp)
    | ok o =>
      rw [hp] at hL
      rcases List.mem_cons.mp hi with rfl | hmem
      · exact ⟨o, hp⟩
      · cases o with
        | none => exact ih hL i hmem
        | some d0 =>
          cases hrest : detectLoop scores labels boxes u w h t rest with
          | error e => rw [hrest] at hL; exact absurd hL (by simp)
          | ok ds => exact ih hrest i hmem

theorem detectLoop_forall_ok {scores labels boxes : Tensor} {u : Bool} {w h : ℕ} {t : ℚ} :
    ∀ {idx : List ℕ},
      (∀ i ∈ idx, ∃ r, procDet scores labels boxes u w h t i = .ok r) →
      ∃ L, detectLoop scores labels boxes u w h t idx = .ok L := by
  intro idx
  induction idx with
  | nil => intro _; exact ⟨[], rfl⟩
  | cons i0 rest ih =>
    intro hall
    obtain ⟨r, hr⟩ := hall i0 (List.mem_cons_self _ _)
    obtain ⟨L, hL⟩ := ih (fun i hi => hall i (List.mem_cons_of_mem _ hi))
    cases r with
    | none =>
      refine ⟨L, ?_⟩
      unfold detectLoop
      rw [hr]
      exact hL
    | some d0 =>
      refine ⟨d0 :: L, ?_⟩
      unfold detectLoop
      rw [hr, hL]

theorem detectLoop_complete {scores labels boxes : Tensor} {u : Bool} {w h : ℕ} {t : ℚ} :
    ∀ {idx : List ℕ} {L : List Detection} {i : ℕ} {d : Detection},
      detectLoop scores labels boxes u w h t idx = .ok L →
      i ∈ idx → procDet scores labels boxes u w h t i = .ok (some d) → d ∈ L := by
  intro idx
  induction idx with
  | nil =>
    intro L i d _ hi _
    simp at hi
  | cons i0 rest ih =>
    intro L i d hL hi hpd
    unfold detectLoop at hL
    cases hp : procDet scores labels boxes u w h t i0 with
    | error e => rw [hp] at hL; exact absurd hL (by simp)
    | ok o =>
      rw [hp] at hL
      rcases List.mem_cons.mp hi with rfl | hmem
      · have ho : o = some d := by
          have h2 := hp.symm.trans hpd
          simp only [Except.ok.injEq] at h2
          exact h2
        subst ho
        cases hrest : detectLoop scores labels boxes u w h t rest with
        | error e => rw [hrest] at hL; exact absurd hL (by simp)
        | ok ds =>
          rw [hrest] at hL
          have h3 : (Except.ok (d :: ds) : Except String (List Detection)) = .ok L := hL
          simp only [Except.ok.injEq] at h3
          subst h3
          exact List.mem_cons_self _ _
      · cases o with
        | none => exact ih hL hmem hpd
        | some d0 =>
          cases hrest : detectLoop scores labels boxes u w h t rest with
          | error e => rw [hrest] at hL; exact absurd hL (by simp)
          | ok ds =>
            rw [hrest] at hL
            have h3 : (Except.ok (d0 :: ds) : Except String (List Detection)) = .ok L := hL
            simp only [Except.ok.injEq] at h3
            subst h3
            exact List.mem_cons_of_mem _ (ih hrest hmem hpd)

theorem mem_detect_spec {outs : List (String × Tensor)} {w h : ℕ} {t : ℚ} {d : Detection}
    (hd : d ∈ detect_objects (some outs) w h t) :
    ∃ boxes labels scores ns nl nb L,
      parseOutputs outs = some (boxes, labels, scores) ∧
      Tensor.length scores = .ok ns ∧ Tensor.length labels = .ok nl ∧
      Tensor.length boxes = .ok nb ∧
      detectLoop scores labels boxes (use01Of labels) w h t
        (List.range (min ns (min nl nb))) = .ok L ∧
      detect_objects (some outs) w h t = L ∧
      ∃ i, i ∈ List.range (min ns (min nl nb)) ∧
        procDet scores labels boxes (use01Of labels) w h t i = .ok (some d) := by
  simp only [detect_objects] at hd
  cases hb : detectBody outs w h t with
  | error e => rw [hb] at hd; simp at hd
  | ok L =>
    rw [hb] at hd
    have hc := hb
    unfold detectBody at hc
    cases hp : parseOutputs outs with
    | none =>
      simp only [hp, Except.ok.injEq] at hc
      subst hc
      simp at hd
    | some triple =>
      obtain ⟨boxes, labels, scores⟩ := triple
      simp only [hp] at hc
      cases hls : Tensor.length scores with
      | error e => simp only [hls] at hc; exact absurd hc (by simp)
      | ok ns =>
        simp only [hls] at hc
        cases hll : Tensor.length labels with
        | error e => simp only [hll] at hc; exact absurd hc (by simp)
        | ok nl =>
          simp only [hll] at hc
          cases hlb : Tensor.length boxes with
          | error e => simp only [hlb] at hc; exact absurd hc (by simp)
          | ok nb =>
            simp only [hlb] at hc
            obtain ⟨i, hi, hpi⟩ := detectLoop_mem hc hd
            exact ⟨boxes, labels, scores, ns, nl, nb, L, rfl, hls, hll, hlb, hc,
                   by simp only [detect_objects, hb], i, hi, hpi⟩

/-! ### Claim theorems -/

/-- C2: every Detection in the list returned by `detect_objects` has
confidence at least the caller-supplied threshold and an integer bbox
`[x1, y1, x2, y2]` with `x1 < x2` and `y1 < y2`, each coordinate
non-negative and at most `dimension - 1`. -/
theorem c2_detection_invariant {outs : List (String × Tensor)} {w h : ℕ} {t : ℚ}
    {d : Detection} (hd : d ∈ detect_objects (some outs) w h t) :
    t ≤ d.confidence ∧
    0 ≤ d.bbox.x1 ∧ d.bbox.x1 < d.bbox.x2 ∧ d.bbox.x2 ≤ (w : ℤ) - 1 ∧
    0 ≤ d.bbox.y1 ∧ d.bbox.y1 < d.bbox.y2 ∧ d.bbox.y2 ≤ (h : ℤ) - 1 := by
  obtain ⟨boxes, labels, scores, ns, nl, nb, L, hp, hls, hll, hlb, hloop, heq, i, hi, hpi⟩ :=
    mem_detect_spec hd
  obtain ⟨hconf, -, b1, b2, b3, b4, hx1, hy1, hx2, hy2, hxlt, hylt⟩ := procDet_ok_some hpi
  have hx1n : 0 ≤ d.bbox.x1 := hx1 ▸ pyClip_nonneg _ _
  have hy1n : 0 ≤ d.bbox.y1 := hy1 ▸ pyClip_nonneg _ _
  have hx2b : d.bbox.x2 ≤ max 0 ((w : ℤ) - 1) := hx2 ▸ pyClip_le_pred _ _
  have hy2b : d.bbox.y2 ≤ max 0 ((h : ℤ) - 1) := hy2 ▸ pyClip_le_pred _ _
  have hx2f : d.bbox.x2 ≤ (w : ℤ) - 1 := by
    rcases le_or_lt ((w : ℤ) - 1) 0 with hw | hw
    · exfalso
      have h0 : d.bbox.x2 ≤ 0 := by rwa [max_eq_left hw] at hx2b
      exact absurd (lt_of_le_of_lt hx1n hxlt) (not_lt.mpr h0)
    · rwa [max_eq_right (le_of_lt hw)] at hx2b
  have hy2f : d.bbox.y2 ≤ (h : ℤ) - 1 := by
    rcases le_or_lt ((h : ℤ) - 1) 0 with hh | hh
    · exfalso
      have h0 : d.bbox.y2 ≤ 0 := by rwa [max_eq_left hh] at hy2b
      exact absurd (lt_of_le_of_lt hy1n hylt) (not_lt.mpr h0)
    · rwa [max_eq_right (le_of_lt hh)] at hy2b
  exact ⟨hconf, hx1n, hxlt, hx2f, hy1n, hylt, hy2f⟩

/-- Witness for C2: the invariant holds at a concrete input with one
surviving detection. -/
theorem c2_detection_invariant_witness :
    (1/2 : ℚ) ≤ c2Det.confidence ∧
    0 ≤ c2Det.bbox.x1 ∧ c2Det.bbox.x1 < c2Det.bbox.x2 ∧ c2Det.bbox.x2 ≤ (640 : ℤ) - 1 ∧
    0 ≤ c2Det.bbox.y1 ∧ c2Det.bbox.y1 < c2Det.bbox.y2 ∧ c2Det.bbox.y2 ≤ (640 : ℤ) - 1 :=
  @c2_detection_invariant c2Outs 640 640 (1/2) c2Det (by decide)

/-- C3: label resolution is batch-level — the scheme is selected once
per call from the maximum raw label value (`int(np.max(labels)) <= 1`
selects the 0-based table, otherwise the offset table) and applied
uniformly to every detection of the call; raw label 3 always resolves
to "motorcycle" in either scheme; any other label outside the active
table resolves to the fallback string `"class_<id>"`. -/
theorem c3_label_resolution :
    (∀ u : Bool, resolveLabel u 3 = "motorcycle") ∧
    (resolveLabel true 0 = "motorcycle" ∧ resolveLabel true 1 = "car" ∧
     resolveLabel false 1 = "motorcycle" ∧ resolveLabel false 2 = "car") ∧
    (∀ cls : ℤ, cls ≠ 3 → cls ≠ 0 → cls ≠ 1 →
      resolveLabel true cls = "class_" ++ toString cls) ∧
    (∀ cls : ℤ, cls ≠ 3 → cls ≠ 1 → cls ≠ 2 →
      resolveLabel false cls = "class_" ++ toString cls) ∧
    (∀ (labels : Tensor) (m : ℚ), Tensor.maxVal labels = some m →
      (use01Of labels = true ↔ pyInt m ≤ 1)) ∧
    (∀ (outs : List (String × Tensor)) (w h : ℕ) (t : ℚ)
       (boxes labels scores : Tensor) (d : Detection),
      parseOutputs outs = some (boxes, labels, scores) →
      d ∈ detect_objects (some outs) w h t →
      d.class_name = resolveLabel (use01Of labels) d.class_id) := by
  refine ⟨fun u => by cases u <;> rfl, ⟨rfl, rfl, rfl, rfl⟩, ?_, ?_, ?_, ?_⟩
  · intro cls h3 h0 h1
    unfold resolveLabel
    rw [if_neg h3, if_pos rfl, if_neg h0, if_neg h1]
  · intro cls h3 h1 h2
    unfold resolveLabel
    rw [if_neg h3]
    simp only [Bool.false_eq_true, if_false]
    rw [if_neg h1, if_neg h2]
  · intro labels m hm
    unfold use01Of
    rw [hm]
    simp
  · intro outs w h t boxes labels scores d hp hd
    obtain ⟨boxes2, labels2, scores2, ns, nl, nb, L, hp2, hls, hll, hlb, hloop, heq,
      i, hi, hpi⟩ := mem_detect_spec hd
    rw [hp] at hp2
    obtain ⟨rfl, rfl, rfl⟩ : boxes = boxes2 ∧ labels = labels2 ∧ scores = scores2 := by
      have h5 := hp2
      simp only [Option.some.injEq, Prod.mk.injEq] at h5
      exact ⟨h5.1, h5.2.1, h5.2.2⟩
    obtain ⟨-, hname, -⟩ := procDet_ok_some hpi
    exact hname

/-- Witness for C3 at concrete inputs: label 3 under the 0-based
scheme, a fallback label under the offset scheme, scheme selection for
a batch with maximum label 7, and the pipeline resolving the second
detection of `c3Outs` with the batch-level scheme. -/
theorem c3_label_resolution_witness :
    resolveLabel true 3 = "motorcycle" ∧
    resolveLabel false 7 = "class_7" ∧
    (use01Of (Tensor.arr1 [2, 7]) = true ↔ pyInt 7 ≤ 1) ∧
    c3DetB.class_name = resolveLabel (use01Of (Tensor.arr1 [2, 7])) c3DetB.class_id :=
  ⟨c3_label_resolution.1 true,
   c3_label_resolution.2.2.2.1 7 (by decide) (by decide) (by decide),
   c3_label_resolution.2.2.2.2.1 (Tensor.arr1 [2, 7]) 7 (by decide),
   c3_label_resolution.2.2.2.2.2 c3Outs 640 640 (1/2)
     (Tensor.arr2 [[10, 20, 100, 200], [30, 40, 120, 220]])
     (Tensor.arr1 [2, 7]) (Tensor.arr1 [9/10, 8/10]) c3DetB rfl (by decide)⟩

/-- C5: threshold monotonicity — for any raw output collection and any
thresholds `t1 < t2`, every detection returned at the higher threshold
`t2` is also returned at the lower threshold `t1`. The confidence gate
at lines 150-151 runs before box unpacking, and any output that reaches
the loop is rectangular (it survived `np.array` inside `squeeze_batch`),
so per-index processing outcomes beyond the gate are uniform: lowering
the threshold can only let more items through, never raise where the
higher-threshold run succeeded. -/
theorem c5_threshold_subset (outs : List (String × Tensor)) (w h : ℕ)
    (t1 t2 : ℚ) (hlt : t1 < t2) :
    detect_objects (some outs) w h t2 ⊆ detect_objects (some outs) w h t1 := by
  intro d hd
  obtain ⟨boxes, labels, scores, ns, nl, nb, L, hp, hls, hll, hlb, hloop, heq, i, hi, hpi⟩ :=
    mem_detect_spec hd
  obtain ⟨hwfB, -, -⟩ := parse_wellFormed hp
  obtain ⟨sTi, confi, hsTi, hcfi, hci, hresti⟩ := procDet_some_parts hpi
  have hall : ∀ j ∈ List.range (min ns (min nl nb)),
      ∃ r, procDet scores labels boxes (use01Of labels) w h t1 j = .ok r := by
    intro j hj
    have hj2 := List.mem_range.mp hj
    obtain ⟨rj, hrj⟩ := detectLoop_ok_forall hloop j hj
    obtain ⟨sT, conf, hsT, hcf⟩ := procDet_ok_scores hrj
    rw [procDet_eq_of_conf hsT hcf]
    by_cases hc : conf < t1
    · exact ⟨none, by rw [if_pos hc]⟩
    · have hjl : j < nl := lt_of_lt_of_le hj2 (le_trans (min_le_right _ _) (min_le_left _ _))
      have hjb : j < nb := lt_of_lt_of_le hj2 (le_trans (min_le_right _ _) (min_le_right _ _))
      obtain ⟨r2, hr2⟩ := procRest_uniform conf hwfB hll hlb hjl hjb hresti
      exact ⟨r2, by rw [if_neg hc]; exact hr2⟩
  obtain ⟨L1, hL1⟩ := detectLoop_forall_ok hall
  have hci1 : ¬ confi < t1 := fun hcon => hci (lt_trans hcon hlt)
  have hpi1 : procDet scores labels boxes (use01Of labels) w h t1 i = .ok (some d) := by
    rw [procDet_eq_of_conf hsTi hcfi, if_neg hci1]
    exact hresti
  have hdL1 : d ∈ L1 := detectLoop_complete hL1 hi hpi1
  have hbody1 : detectBody outs w h t1 = .ok L1 := by
    unfold detectBody
    simp only [hp, hls, hll, hlb]
    exact hL1
  simp only [detect_objects, hbody1]
  exact hdL1

/-- Witness for C5: on the concrete two-detection output `c5GoodOuts`,
the detection surviving threshold 0.5 is also returned at threshold
0.3. -/
theorem c5_threshold_subset_witness :
    c5DetA ∈ detect_objects (some c5GoodOuts) 640 640 (3/10) :=
  c5_threshold_subset c5GoodOuts 640 640 (3/10) (1/2) (by decide)
    (by decide : c5DetA ∈ detect_objects (some c5GoodOuts) 640 640 (1/2))

/-- C1 counterexample: a two-tensor collection with unrecognized names
matches neither layout, yet `detect_objects` returns a bare empty list
as a normal success (`detectBody` reports `.ok`, not an error), and a
five-tensor collection is parsed positionally into two detections
instead of failing. -/
theorem c1_unrecognized_counterexample :
    detectBody c1Outs 640 640 (1/2) = Except.ok [] ∧
    detect_objects (some c1Outs) 640 640 (1/2) = [] ∧
    (detect_objects (some c1OutsFive) 640 640 (1/2)).length = 2 :=
  ⟨rfl, rfl, by decide⟩

/-- C1 amended: when the collection has no named `boxes`/`labels`/
`scores` entries and fewer than three tensors, `detect_objects`
returns the empty list as a normal success — no error value is
produced or surfaced (with three or more tensors the code instead
falls back to positional parsing). -/
theorem c1_amended_silent_empty {outs : List (String × Tensor)} {w h : ℕ} {t : ℚ}
    (hb : lookupLast outs "boxes" = none) (hl : lookupLast outs "labels" = none)
    (hs : lookupLast outs "scores" = none) (hlen : outs.length < 3) :
    detectBody outs w h t = .ok [] ∧ detect_objects (some outs) w h t = [] := by
  have hp : parseOutputs outs = none := by
    unfold parseOutputs
    simp only [hb, hl, hs, squeezeOpt]
    rw [if_pos (by simp)]
    rw [if_neg (by omega : ¬ 3 ≤ outs.length)]
  have h1 : detectBody outs w h t = .ok [] := by
    unfold detectBody
    rw [hp]
  exact ⟨h1, by simp only [detect_objects, h1]⟩

/-- Witness for C1 amended at the concrete two-tensor collection. -/
theorem c1_amended_silent_empty_witness :
    detectBody c1Outs 320 240 (1/2) = .ok [] ∧
    detect_objects (some c1Outs) 320 240 (1/2) = [] :=
  @c1_amended_silent_empty c1Outs 320 240 (1/2) rfl rfl rfl (by decide)

/-- C4 counterexample: the normalized raw box `[0.1, 0.2, 0.3, 0.4]`
with score 0.9 on a 640x640 image is scaled by `640/640 = 1`, truncated
to the degenerate box `[0, 0, 0, 0]` and discarded — the output is
empty rather than the claimed `[64, 128, 192, 256]` detection. -/
theorem c4_normalized_counterexample :
    detect_objects (some c4Outs) 640 640 (1/2) = [] ∧
    ({ class_id := 1, class_name := "car", confidence := 9/10,
       bbox := ⟨64, 128, 192, 256⟩ } : Detection) ∉
      detect_objects (some c4Outs) 640 640 (1/2) := by decide

/-- C4 amended: the coordinate transform has a single branch — every
raw box is scaled by `scale_x = w/640` and `scale_y = h/640` and
clipped, with no normalized-coordinate detection; for a well-formed
single-detection batch passing the confidence and degeneracy gates the
output bbox is exactly the 640-space-scaled clip of the raw box. -/
theorem c4_amended_single_branch_scaling (w h : ℕ) (t c b1 b2 b3 b4 sc : ℚ)
    (hconf : ¬ sc < t)
    (hx : pyClip (b1 * ((w : ℚ) / 640)) ((w : ℚ) - 1) <
          pyClip (b3 * ((w : ℚ) / 640)) ((w : ℚ) - 1))
    (hy : pyClip (b2 * ((h : ℚ) / 640)) ((h : ℚ) - 1) <
          pyClip (b4 * ((h : ℚ) / 640)) ((h : ℚ) - 1)) :
    detect_objects (some [("labels", Tensor.arr2 [[c]]),
                          ("boxes", Tensor.arr3 [[[b1, b2, b3, b4]]]),
                          ("scores", Tensor.arr2 [[sc]])]) w h t =
      [{ class_id := pyInt c,
         class_name := resolveLabel (decide (pyInt c ≤ 1)) (pyInt c),
         confidence := sc,
         bbox := ⟨pyClip (b1 * ((w : ℚ) / 640)) ((w : ℚ) - 1),
                  pyClip (b2 * ((h : ℚ) / 640)) ((h : ℚ) - 1),
                  pyClip (b3 * ((w : ℚ) / 640)) ((w : ℚ) - 1),
                  pyClip (b4 * ((h : ℚ) / 640)) ((h : ℚ) - 1)⟩ }] := by
  have hdeg : ¬ (pyClip (b1 * ((w : ℚ) / 640)) ((w : ℚ) - 1) ≥
        pyClip (b3 * ((w : ℚ) / 640)) ((w : ℚ) - 1) ∨
      pyClip (b2 * ((h : ℚ) / 640)) ((h : ℚ) - 1) ≥
        pyClip (b4 * ((h : ℚ) / 640)) ((h : ℚ) - 1)) := by
    push_neg
    exact ⟨hx, hy⟩
  have hpd : procDet (Tensor.arr1 [sc]) (Tensor.arr1 [c]) (Tensor.arr2 [[b1, b2, b3, b4]])
      (decide (pyInt c ≤ 1)) w h t 0 =
      .ok (some { class_id := pyInt c,
                  class_name := resolveLabel (decide (pyInt c ≤ 1)) (pyInt c),
                  confidence := sc,
                  bbox := ⟨pyClip (b1 * ((w : ℚ) / 640)) ((w : ℚ) - 1),
                           pyClip (b2 * ((h : ℚ) / 640)) ((h : ℚ) - 1),
                           pyClip (b3 * ((w : ℚ) / 640)) ((w : ℚ) - 1),
                           pyClip (b4 * ((h : ℚ) / 640)) ((h : ℚ) - 1)⟩ }) := by
    unfold procDet procRest
    simp only [Tensor.item, asScalar, asRow4, List.get?]
    rw [if_neg hconf, if_neg hdeg]
  have hbody : detectBody [("labels", Tensor.arr2 [[c]]),
                           ("boxes", Tensor.arr3 [[[b1, b2, b3, b4]]]),
                           ("scores", Tensor.arr2 [[sc]])] w h t =
      .ok [{ class_id := pyInt c,
             class_name := resolveLabel (decide (pyInt c ≤ 1)) (pyInt c),
             confidence := sc,
             bbox := ⟨pyClip (b1 * ((w : ℚ) / 640)) ((w : ℚ) - 1),
                      pyClip (b2 * ((h : ℚ) / 640)) ((h : ℚ) - 1),
                      pyClip (b3 * ((w : ℚ) / 640)) ((w : ℚ) - 1),
                      pyClip (b4 * ((h : ℚ) / 640)) ((h : ℚ) - 1)⟩ }] := by
    unfold detectBody
    rw [parseOutputs_named (Tensor.arr2 [[c]]) (Tensor.arr3 [[[b1, b2, b3, b4]]])
      (Tensor.arr2 [[sc]]) (squeeze_wrap3 [[b1, b2, b3, b4]] rfl)
      (squeeze_wrap2 [c]) (squeeze_wrap2 [sc])]
    simp only [Tensor.length, use01Of, Tensor.maxVal, maxQ]
    have hr : List.range (min ([sc].length) (min ([c].length) ([[b1, b2, b3, b4]].length))) =
        [0] := rfl
    rw [hr]
    unfold detectLoop
    rw [hpd]
    rfl
  simp only [detect_objects, hbody]

/-- Witness for C4 amended at the spec scenario: image 1280x960, raw
640-space box `[64, 64, 128, 128]`, score 0.9, threshold 0.5 — output
box `[128, 96, 256, 192]` via `scale_x = 2`, `scale_y = 1.5`. -/
theorem c4_amended_single_branch_scaling_witness :
    detect_objects (some [("labels", Tensor.arr2 [[(1 : ℚ)]]),
                          ("boxes", Tensor.arr3 [[[64, 64, 128, 128]]]),
                          ("scores", Tensor.arr2 [[9/10]])]) 1280 960 (1/2) =
      [{ class_id := 1, class_name := "car", confidence := 9/10,
         bbox := ⟨128, 96, 256, 192⟩ }] :=
  (c4_amended_single_branch_scaling 1280 960 (1/2) 1 64 64 128 128 (9/10)
    (by decide) (by decide) (by decide)).trans (by decide)

/-- C6 counterexample: on the bare single-detection 3-tensor output
`c6BareOuts` — labels shape `(1,)`, boxes shape `(1, 4)`, scores shape
`(1,)` — normalization is NOT the identity: `squeeze_batch` mistakes
the single boxes row for a batch dimension (`ndim == 2 and
shape[0] == 1`, line 110) and strips it, so the parsed boxes are the
flat 4-vector `[10, 20, 100, 200]` rather than the one-row matrix; the
per-detection axes are misaligned (`boxes.shape[0]` becomes 4 against
1 label and 1 score, and `boxes[0]` is the scalar 10), and the
detection is lost: `detect_objects` returns `[]` instead of the one
detection the output encodes. -/
theorem c6_bare_single_counterexample :
    parseOutputs c6BareOuts =
      some (Tensor.arr1 [10, 20, 100, 200], Tensor.arr1 [1], Tensor.arr1 [9/10]) ∧
    parseOutputs c6BareOuts ≠
      some (Tensor.arr2 [[10, 20, 100, 200]], Tensor.arr1 [1], Tensor.arr1 [9/10]) ∧
    Tensor.length (Tensor.arr1 [10, 20, 100, 200]) = .ok 4 ∧
    Tensor.length (Tensor.arr1 [(1 : ℚ)]) = .ok 1 ∧
    detect_objects (some c6BareOuts) 640 640 (1/2) = [] :=
  ⟨by decide, by decide, rfl, rfl, by decide⟩

/-- C6 amended: given a rectangular raw 3-tensor output in the order
`[labels, boxes, scores]`, normalization is the identity reduction —
after stripping a leading size-1 batch dimension when present — for
every batched presentation, and for a bare presentation whenever the
boxes array does not have exactly one row (a bare `(1, 4)` boxes array
instead has its detection axis stripped, the defect exhibited by the
counterexample); in the identity cases the normalized labels, boxes
and scores are three equal-length per-detection sequences whose i-th
entries are exactly the i-th entries of the corresponding input
tensors. -/
theorem c6_three_tensor_identity (ls ss : List ℚ) (bs : List (List ℚ)) (n : ℕ)
    (hls : ls.length = n) (hbs : bs.length = n) (hss : ss.length = n)
    (hrect : rect2 bs = true) :
    parseOutputs [("labels", Tensor.arr2 [ls]), ("boxes", Tensor.arr3 [bs]),
        ("scores", Tensor.arr2 [ss])] =
      some (Tensor.arr2 bs, Tensor.arr1 ls, Tensor.arr1 ss) ∧
    (bs.length ≠ 1 →
      parseOutputs [("labels", Tensor.arr1 ls), ("boxes", Tensor.arr2 bs),
          ("scores", Tensor.arr1 ss)] =
        some (Tensor.arr2 bs, Tensor.arr1 ls, Tensor.arr1 ss)) ∧
    (∀ i : ℕ, i < n → ∃ (li si : ℚ) (bi : List ℚ),
      ls.get? i = some li ∧ bs.get? i = some bi ∧ ss.get? i = some si ∧
      (Tensor.arr1 ls).item i = .ok (.scalar li) ∧
      (Tensor.arr2 bs).item i = .ok (.arr1 bi) ∧
      (Tensor.arr1 ss).item i = .ok (.scalar si)) := by
  refine ⟨?_, ?_, ?_⟩
  · exact parseOutputs_named (Tensor.arr2 [ls]) (Tensor.arr3 [bs]) (Tensor.arr2 [ss])
      (squeeze_wrap3 bs hrect) (squeeze_wrap2 ls) (squeeze_wrap2 ss)
  · intro hb1
    exact parseOutputs_named (Tensor.arr1 ls) (Tensor.arr2 bs) (Tensor.arr1 ss)
      (squeeze_arr2_of_len_ne_one bs hrect hb1) (squeeze_arr1 ls) (squeeze_arr1 ss)
  · intro i hi
    have h1 : i < ls.length := by rw [hls]; exact hi
    have h2 : i < bs.length := by rw [hbs]; exact hi
    have h3 : i < ss.length := by rw [hss]; exact hi
    obtain ⟨li, hgl⟩ : ∃ li, ls.get? i = some li := ⟨_, List.get?_eq_get h1⟩
    obtain ⟨bi, hgb⟩ : ∃ bi, bs.get? i = some bi := ⟨_, List.get?_eq_get h2⟩
    obtain ⟨si, hgs⟩ : ∃ si, ss.get? i = some si := ⟨_, List.get?_eq_get h3⟩
    refine ⟨li, si, bi, hgl, hgb, hgs, ?_, ?_, ?_⟩
    · simp only [Tensor.item, hgl]
    · simp only [Tensor.item, hgb]
    · simp only [Tensor.item, hgs]

/-- Witness for C6 amended at a concrete two-detection output, with
the bare-presentation side condition discharged concretely. -/
theorem c6_three_tensor_identity_witness :
    parseOutputs [("labels", Tensor.arr2 [[0, 1]]),
        ("boxes", Tensor.arr3 [[[1, 2, 3, 4], [5, 6, 7, 8]]]),
        ("scores", Tensor.arr2 [[1/2, 3/4]])] =
      some (Tensor.arr2 [[1, 2, 3, 4], [5, 6, 7, 8]], Tensor.arr1 [0, 1],
            Tensor.arr1 [1/2, 3/4]) ∧
    parseOutputs [("labels", Tensor.arr1 [0, 1]),
        ("boxes", Tensor.arr2 [[1, 2, 3, 4], [5, 6, 7, 8]]),
        ("scores", Tensor.arr1 [1/2, 3/4])] =
      some (Tensor.arr2 [[1, 2, 3, 4], [5, 6, 7, 8]], Tensor.arr1 [0, 1],
            Tensor.arr1 [1/2, 3/4]) ∧
    (∀ i : ℕ, i < 2 → ∃ (li si : ℚ) (bi : List ℚ),
      List.get? [0, 1] i = some li ∧
      List.get? [[1, 2, 3, 4], [5, 6, 7, 8]] i = some bi ∧
      List.get? [1/2, 3/4] i = some si ∧
      (Tensor.arr1 [0, 1]).item i = .ok (.scalar li) ∧
      (Tensor.arr2 [[1, 2, 3, 4], [5, 6, 7, 8]]).item i = .ok (.arr1 bi) ∧
      (Tensor.arr1 [1/2, 3/4]).item i = .ok (.scalar si)) :=
  ⟨(c6_three_tensor_identity [0, 1] [1/2, 3/4] [[1, 2, 3, 4], [5, 6, 7, 8]] 2
      rfl rfl rfl (by decide)).1,
   (c6_three_tensor_identity [0, 1] [1/2, 3/4] [[1, 2, 3, 4], [5, 6, 7, 8]] 2
      rfl rfl rfl (by decide)).2.1 (by decide),
   (c6_three_tensor_identity [0, 1] [1/2, 3/4] [[1, 2, 3, 4], [5, 6, 7, 8]] 2
      rfl rfl rfl (by decide)).2.2⟩

/-- C7 counterexample: out-of-range thresholds are not rejected and no
error is produced — with threshold 1.5 detection completes normally
with an empty result, and with threshold -0.5 it completes normally
with one detection. -/
theorem c7_no_config_error_counterexample :
    detectBody c7Outs 640 640 (3/2) = Except.ok [] ∧
    detect_objects (some c7Outs) 640 640 (3/2) = [] ∧
    detectBody c7Outs 640 640 (-(1/2)) = Except.ok [c7Det] ∧
    detect_objects (some c7Outs) 640 640 (-(1/2)) = [c7Det] :=
  ⟨rfl, rfl, rfl, rfl⟩

/-- C7 amended: `detect_objects` performs no threshold validation; the
caller-supplied threshold is used directly in the per-detection
comparison, so any threshold above 1 silently filters out every
detection whose score is at most 1 and the call reports an ordinary
(empty) success. -/
theorem c7_amended_no_validation (w h : ℕ) (t c b1 b2 b3 b4 sc : ℚ)
    (ht : 1 < t) (hsc : sc ≤ 1) :
    detectBody [("labels", Tensor.arr2 [[c]]),
        ("boxes", Tensor.arr3 [[[b1, b2, b3, b4]]]),
        ("scores", Tensor.arr2 [[sc]])] w h t = .ok [] ∧
    detect_objects (some [("labels", Tensor.arr2 [[c]]),
        ("boxes", Tensor.arr3 [[[b1, b2, b3, b4]]]),
        ("scores", Tensor.arr2 [[sc]])]) w h t = [] := by
  have hconf : sc < t := lt_of_le_of_lt hsc ht
  have hpd : procDet (Tensor.arr1 [sc]) (Tensor.arr1 [c]) (Tensor.arr2 [[b1, b2, b3, b4]])
      (decide (pyInt c ≤ 1)) w h t 0 = .ok none := by
    unfold procDet
    simp only [Tensor.item, asScalar, List.get?]
    rw [if_pos hconf]
  have hbody : detectBody [("labels", Tensor.arr2 [[c]]),
      ("boxes", Tensor.arr3 [[[b1, b2, b3, b4]]]),
      ("scores", Tensor.arr2 [[sc]])] w h t = .ok [] := by
    unfold detectBody
    rw [parseOutputs_named (Tensor.arr2 [[c]]) (Tensor.arr3 [[[b1, b2, b3, b4]]])
      (Tensor.arr2 [[sc]]) (squeeze_wrap3 [[b1, b2, b3, b4]] rfl)
      (squeeze_wrap2 [c]) (squeeze_wrap2 [sc])]
    simp only [Tensor.length, use01Of, Tensor.maxVal, maxQ]
    have hr : List.range (min ([sc].length) (min ([c].length) ([[b1, b2, b3, b4]].length))) =
        [0] := rfl
    rw [hr]
    unfold detectLoop
    rw [hpd]
    rfl
  exact ⟨hbody, by simp only [detect_objects, hbody]⟩

/-- Witness for C7 amended: threshold 1.5 on a score-0.9 detection. -/
theorem c7_amended_no_validation_witness :
    detectBody [("labels", Tensor.arr2 [[1]]),
        ("boxes", Tensor.arr3 [[[10, 20, 100, 200]]]),
        ("scores", Tensor.arr2 [[9/10]])] 640 640 (3/2) = .ok [] ∧
    detect_objects (some [("labels", Tensor.arr2 [[1]]),
        ("boxes", Tensor.arr3 [[[10, 20, 100, 200]]]),
        ("scores", Tensor.arr2 [[9/10]])]) 640 640 (3/2) = [] :=
  c7_amended_no_validation 640 640 (3/2) 1 10 20 100 200 (9/10) (by decide) (by decide)

/-- C8: the `traffic_stats` counter is never incremented — the
`detect_objects` method leaves the instance state (including
`traffic_stats`) unchanged on every call, even when the completed
batch contains a resolved "car" detection, contradicting the claimed
per-batch increment. -/
theorem c8_stats_never_incremented :
    (∀ (st : TrafficDetectorState) (w h : ℕ) (t : ℚ),
      ((detect_objects_method st w h t).1).traffic_stats = st.traffic_stats) ∧
    (detect_objects_method ⟨some c8Outs, []⟩ 640 640 (1/2)).2 = [c8Det] ∧
    ((detect_objects_method ⟨some c8Outs, []⟩ 640 640 (1/2)).1).traffic_stats = [] :=
  ⟨fun _ _ _ _ => rfl, by decide, rfl⟩

/-- C9: `draw_detections` never mutates the caller's image (all
rectangle writes target the fresh frame copy), and when the rendering
loop raises — e.g. a bbox that does not unpack into four values — it
returns the caller's image unchanged instead of propagating the
exception. -/
theorem c9_draw_preserves_image :
    ∀ (image : Img) (dets : List RawDet),
      (draw_detections image dets).1 = image ∧
      (∀ e, drawLoop (swapChannels image) dets = .error e →
        (draw_detections image dets).2 = image) := by
  intro image dets
  unfold draw_detections
  cases hdl : drawLoop (swapChannels image) dets with
  | ok f =>
    refine ⟨rfl, ?_⟩
    intro e he
    exact absurd he (by simp)
  | error e0 =>
    exact ⟨rfl, fun e he => rfl⟩

/-- Witness for C9: a rendering failure (3-entry bbox) returns the
caller's image unchanged in both components. -/
theorem c9_draw_preserves_image_witness :
    (draw_detections c9Img [c9BadDet]).1 = c9Img ∧
    (draw_detections c9Img [c9BadDet]).2 = c9Img :=
  ⟨(c9_draw_preserves_image c9Img [c9BadDet]).1,
   (c9_draw_preserves_image c9Img [c9BadDet]).2 "bbox unpack failed" rfl⟩

/-- C10: `detect_objects` is total at its public interface: with no
model loaded it returns `[]`; when the raw outputs match no known
layout it returns `[]`; and when the body raises internally the outer
handler turns the exception into `[]` — a list is returned in every
case. -/
theorem c10_detect_total :
    (∀ (w h : ℕ) (t : ℚ), detect_objects none w h t = []) ∧
    (∀ (outs : List (String × Tensor)) (w h : ℕ) (t : ℚ),
      parseOutputs outs = none → detect_objects (some outs) w h t = []) ∧
    (∀ (outs : List (String × Tensor)) (w h : ℕ) (t : ℚ) (e : String),
      detectBody outs w h t = .error e → detect_objects (some outs) w h t = []) := by
  refine ⟨fun _ _ _ => rfl, ?_, ?_⟩
  · intro outs w h t hp
    have hbody : detectBody outs w h t = .ok [] := by
      unfold detectBody
      rw [hp]
    simp only [detect_objects, hbody]
  · intro outs w h t e he
    simp only [detect_objects, he]

/-- Witness for C10: no model, an unparseable collection, and an
internal exception (malformed box row) all yield `[]`. -/
theorem c10_detect_total_witness :
    detect_objects none 640 640 (1/2) = [] ∧
    detect_objects (some [("z", Tensor.arr1 [1])]) 640 640 (1/2) = [] ∧
    detect_objects (some c10ErrOuts) 640 640 (1/2) = [] :=
  ⟨c10_detect_total.1 640 640 (1/2),
   c10_detect_total.2.1 [("z", Tensor.arr1 [1])] 640 640 (1/2) rfl,
   c10_detect_total.2.2 c10ErrOuts 640 640 (1/2) "bad box row" rfl⟩
